import Mathlib

/-!
Shallow embedding of the playback-synchronization relay (`src/server/server.py`,
class `SyncServer`) and the per-client bridge (`src/client/client.py`, class
`SyncClient`).

Modelling conventions:
* Socket connections are identified by natural numbers (`Conn`); the server's
  Python `set[socket.socket]` is a duplicate-free list maintained by
  `setAdd` / `setDiscard` (Python `set.add` / `set.discard`).
* Python floats (playback positions, tolerances, clock readings) are modelled
  as exact rationals `ℚ`; the claims concern the comparison logic, not IEEE
  rounding.
* A wire message (one JSON object) is a record of the fields the code reads
  via `msg.get(...)`: `event`, `paused`, `raw_time`, `source`.  A field absent
  from the JSON object is `none` (Python `msg.get` returns `None`).  Note the
  server stores `msg.get("paused")` directly into `current_pause`, so the
  canonical pause is itself an `Option Bool` (initially `some false`, Python
  `False`).
* A received line is either blank (skipped by `if not line.strip()`),
  malformed (Python `json.loads` raises `JSONDecodeError`), or a parsed
  message; the parse outcome is part of the input to the model.
-/

namespace Sync

abbrev Conn := Nat

/-- One wire-protocol JSON message, restricted to the fields the code reads. -/
structure Msg where
  event : Option String
  paused : Option Bool
  raw_time : Option ℚ
  source : Option String
deriving DecidableEq, Repr

/-- Message with event "pause" carrying a paused flag, as built by
`SyncClient._observe_mpv`. -/
def mkPause (b : Bool) (src : Option String) : Msg :=
  { event := some "pause", paused := some b, raw_time := none, source := src }

/-- Message with event "time" carrying a raw_time, as built by
`SyncClient._observe_mpv`. -/
def mkTime (t : ℚ) (src : Option String) : Msg :=
  { event := some "time", paused := none, raw_time := some t, source := src }

/-- Message with event "seek" carrying a raw_time (not produced by the client
observer, but accepted by the server and by `_listen_server`). -/
def mkSeek (t : ℚ) (src : Option String) : Msg :=
  { event := some "seek", paused := none, raw_time := some t, source := src }

/-- Python `set.add` on a set modelled as a duplicate-free list. -/
def setAdd (l : List Conn) (c : Conn) : List Conn :=
  if c ∈ l then l else l ++ [c]

/-- Python `set.discard`. -/
def setDiscard (l : List Conn) (c : Conn) : List Conn :=
  l.erase c

/-- One received line on either stream: blank, unparsable, or a parsed JSON
object. -/
inductive Line where
  | blank : Line
  | malformed : String → Line
  | parsed : Msg → Line
deriving DecidableEq, Repr

end Sync

namespace SyncServer

open Sync

/-- Mutable state of `SyncServer` (`__init__`, server.py:16-22): configured
drift tolerance, canonical pause and position, and the registered client set. -/
structure State where
  time_tolerance : ℚ
  current_pause : Option Bool
  current_time : ℚ
  clients : List Conn
deriving DecidableEq, Repr

/-- `SyncServer.__init__`: `current_pause = False`, `current_time = 0.0`,
`clients = set()`. -/
def State.init (tol : ℚ) : State :=
  { time_tolerance := tol, current_pause := some false
    current_time := 0, clients := [] }

/-- `SyncServer.broadcast_to_others` (server.py:41-50): iterate over the client
set, skip the sender, attempt `sendall` on each other client with a per-client
`try/except` that only logs a failure.  `fails c = true` means the write to `c`
raised.  The result lists every attempted recipient paired with whether the
write succeeded; the loop never aborts early and never mutates the client set. -/
def broadcast_to_others (clients : List Conn) (sender_conn : Conn)
    (fails : Conn → Bool) : List (Conn × Bool) :=
  (clients.filter (fun c => decide (c ≠ sender_conn))).map (fun c => (c, !fails c))

/-- `SyncServer._handle_message` (server.py:97-117): dispatch on
`msg.get("event")`; a "pause" event is accepted iff its `paused` field differs
from `current_pause`; a "seek" or "time" event with a present `raw_time` is
accepted iff the absolute drift exceeds `time_tolerance`.  Returns the new
state and `some msg` when the (unmodified) message is handed to
`broadcast_to_others`, `none` when nothing is broadcast. -/
def handle_message (st : State) (msg : Msg) : State × Option Msg :=
  if msg.event = some "pause" then
    if msg.paused ≠ st.current_pause then
      ({ st with current_pause := msg.paused }, some msg)
    else (st, none)
  else if msg.event = some "seek" ∨ msg.event = some "time" then
    match msg.raw_time with
    | none => (st, none)
    | some new_time =>
      if |new_time - st.current_time| > st.time_tolerance then
        ({ st with current_time := new_time }, some msg)
      else (st, none)
  else (st, none)

/-- One line of `SyncServer.handle_client`'s inner loop (server.py:79-90):
blank lines are skipped, a `json.JSONDecodeError` is caught, logged and the
loop continues; a parsed message goes to `_handle_message`. -/
def handleLine (st : State) (l : Line) : State × Option Msg :=
  match l with
  | .blank => (st, none)
  | .malformed _ => (st, none)
  | .parsed m => handle_message st m

/-- The receive loop of `handle_client` over a sequence of lines, collecting
the broadcast payloads in order. -/
def runLines (st : State) : List Line → State × List Msg
  | [] => (st, [])
  | l :: rest =>
    let r := handleLine st l
    let r2 := runLines r.1 rest
    (r2.1, r.2.toList ++ r2.2)

/-- `SyncServer.handle_client` (server.py:66-95): register the connection,
process its lines, and on exit (EOF or error) discard the connection in the
`finally` block. -/
def handle_client (st : State) (conn : Conn) (ls : List Line) : State × List Msg :=
  let st1 := { st with clients := setAdd st.clients conn }
  let r := runLines st1 ls
  ({ r.1 with clients := setDiscard r.1.clients conn }, r.2)

end SyncServer

namespace SyncClient

open Sync

/-- A value written into an mpv property by `set_property`. -/
inductive PropValue where
  | b : Bool → PropValue
  | q : ℚ → PropValue
deriving DecidableEq, Repr

/-- An IPC command sent to mpv by `_send_to_mpv`. -/
inductive MpvCommand where
  | set_property : String → PropValue → MpvCommand
deriving DecidableEq, Repr

/-- Outcome of `_listen_server` on one parsed message: skipped (self-echo
filter or unrecognized event), an mpv command issued, or an uncaught Python
exception (e.g. `KeyError` on a missing field) that kills the listen thread. -/
inductive Action where
  | skip : Action
  | command : MpvCommand → Action
  | raiseError : Action
deriving DecidableEq, Repr

/-- `SyncClient._send_to_server` (client.py:120-123): stamp the event with this
client's identity before serialization (`event["source"] = self.client_id`). -/
def send_to_server (client_id : String) (e : Msg) : Msg :=
  { e with source := some client_id }

/-- The body of `SyncClient._listen_server` on one parsed message
(client.py:175-185): drop it if `msg.get("source") == self.client_id`;
apply a "pause" event via `set_property pause` and a "seek"/"time" event via
`set_property time-pos`.  `msg["paused"]` / `msg["raw_time"]` on a missing
field raises `KeyError` (uncaught). -/
def listen_apply (client_id : String) (msg : Msg) : Action :=
  if msg.source = some client_id then .skip
  else if msg.event = some "pause" then
    match msg.paused with
    | some b => .command (.set_property "pause" (.b b))
    | none => .raiseError
  else if msg.event = some "seek" ∨ msg.event = some "time" then
    match msg.raw_time with
    | some t => .command (.set_property "time-pos" (.q t))
    | none => .raiseError
  else .skip

/-- One line of the `_listen_server` loop (client.py:170-185): blank lines are
skipped, but `json.loads` is NOT wrapped in any `try/except`, so an unparsable
line raises `json.JSONDecodeError` and the exception propagates out of the
thread. -/
def listenLine (client_id : String) (l : Line) : Action :=
  match l with
  | .blank => .skip
  | .malformed _ => .raiseError
  | .parsed m => listen_apply client_id m

/-- The `_listen_server` loop over a sequence of lines: returns the mpv
commands issued, paired with `true` when an uncaught exception terminated the
loop (remaining lines unprocessed). -/
def listenRun (client_id : String) : List Line → List MpvCommand × Bool
  | [] => ([], false)
  | l :: rest =>
    match listenLine client_id l with
    | .skip => listenRun client_id rest
    | .command c =>
      let (cs, crashed) := listenRun client_id rest
      (c :: cs, crashed)
    | .raiseError => ([], true)

/-- Outcome of one `self.mpv_sock.connect` attempt inside `SyncClient.connect`:
success, a `FileNotFoundError`/`ConnectionRefusedError` (the two exception
types the `except` clause catches), or any other exception (propagates). -/
inductive DialResult where
  | ok : DialResult
  | transientFail : DialResult
  | otherError : DialResult
deriving DecidableEq, Repr

/-- Outcome of the mpv retry loop. -/
inductive LoopOutcome where
  | connected : LoopOutcome
  | timeoutError : LoopOutcome
  | raisedOther : LoopOutcome
  | exhausted : LoopOutcome
deriving DecidableEq, Repr

/-- The `time.sleep(0.1)` between retries in `SyncClient.connect`
(client.py:96). -/
def retrySleepSeconds : ℚ := 1/10

/-- The `deadline = time.time() + 5` bound in `SyncClient.connect`
(client.py:86). -/
def connectDeadline (start : ℚ) : ℚ := start + 5

/-- The mpv IPC retry loop of `SyncClient.connect` (client.py:87-96), driven
by a trace of attempts: each entry is the attempt's outcome together with the
`time.time()` reading at the post-failure deadline check.  On success the loop
breaks; on a transient failure with the clock past the deadline it raises
`TimeoutError`; otherwise it sleeps 0.1s and retries.  `exhausted` means the
supplied trace ended with the loop still running. -/
def connectMpvLoop (deadline : ℚ) : List (DialResult × ℚ) → LoopOutcome
  | [] => .exhausted
  | (r, t) :: rest =>
    match r with
    | .ok => .connected
    | .otherError => .raisedOther
    | .transientFail =>
      if t > deadline then .timeoutError else connectMpvLoop deadline rest

/-- Overall outcome of `SyncClient.connect`. -/
inductive ConnectResult where
  | success : ConnectResult
  | timeoutError : ConnectResult
  | serverDialError : ConnectResult
  | raisedOther : ConnectResult
deriving DecidableEq, Repr

/-- `SyncClient.connect` (client.py:82-102): first the guarded mpv retry loop;
then, only after it succeeds, the single unguarded
`self.server_sock.connect((host, port))` (client.py:101), whose failure
(`serverOk = false`) raises `ConnectionRefusedError` out of `connect` with no
retry and no timeout conversion.  `none` means the supplied attempt trace was
too short to decide the loop. -/
def connect (start : ℚ) (mpvAttempts : List (DialResult × ℚ)) (serverOk : Bool) :
    Option ConnectResult :=
  match connectMpvLoop (connectDeadline start) mpvAttempts with
  | .connected => some (if serverOk then .success else .serverDialError)
  | .timeoutError => some .timeoutError
  | .raisedOther => some .raisedOther
  | .exhausted => none

end SyncClient

namespace SyncServer

open Sync

/-!
Fine-grained model of the time branch of `_handle_message` for two concurrent
client threads.  In the source, the drift test reads `self.current_time`
(line 111-112), the acceptance writes it (line 113) and then calls
`broadcast_to_others` (line 115); none of these statements holds `self.lock`
(the lock is acquired only inside `broadcast_to_others` around the send loop,
and in `handle_client` around membership changes).  So the read, the write and
the broadcast of one event are three separate atomic steps that can interleave
with another thread's.
-/

/-- Program counter of one thread inside the time branch of
`_handle_message`. -/
inductive TPc where
  | ready : TPc
  | willWrite : TPc
  | willBroadcast : TPc
  | done : TPc
deriving DecidableEq, Repr

/-- Shared state plus both threads' program counters.  `log` records the
broadcast calls in order, as (thread, value) pairs. -/
structure FineSt where
  current_time : ℚ
  log : List (Bool × ℚ)
  pcA : TPc
  pcB : TPc
deriving DecidableEq, Repr

/-- Both threads poised at the drift test, no broadcasts yet. -/
def fineInit (p : ℚ) : FineSt :=
  { current_time := p, log := [], pcA := .ready, pcB := .ready }

/-- One atomic step of thread `tid` (`true` = A handling value `vA`, `false` =
B handling `vB`): evaluate the drift test against the shared `current_time`,
or perform the write, or perform the broadcast call. -/
def fineStep (tol vA vB : ℚ) (tid : Bool) (s : FineSt) : FineSt :=
  let v := if tid then vA else vB
  match (if tid then s.pcA else s.pcB) with
  | .ready =>
    let pc := if |v - s.current_time| > tol then TPc.willWrite else TPc.done
    if tid then { s with pcA := pc } else { s with pcB := pc }
  | .willWrite =>
    if tid then { s with current_time := v, pcA := .willBroadcast }
    else { s with current_time := v, pcB := .willBroadcast }
  | .willBroadcast =>
    if tid then { s with log := s.log ++ [(tid, v)], pcA := .done }
    else { s with log := s.log ++ [(tid, v)], pcB := .done }
  | .done => s

/-- Run a schedule (list of thread choices) from a state. -/
def fineRun (tol vA vB : ℚ) (sched : List Bool) (s : FineSt) : FineSt :=
  sched.foldl (fun s t => fineStep tol vA vB t s) s

/-- Modelled from the spec's words ("the compare-update-then-enumerate-and-send
sequence for one event executes under that lock so that state mutation and the
resulting broadcast are atomic relative to other incoming events"): handling
one time event as a single indivisible step on (position, broadcast log). -/
def specAtomicTime (tol : ℚ) (tid : Bool) (v : ℚ) (s : ℚ × List (Bool × ℚ)) :
    ℚ × List (Bool × ℚ) :=
  if |v - s.1| > tol then (v, s.2 ++ [(tid, v)]) else s

/-- The two broadcast logs the spec's atomic discipline can produce for two
concurrent time events: one serial order or the other. -/
def specSerialLogs (tol vA vB p : ℚ) : List (List (Bool × ℚ)) :=
  [(specAtomicTime tol false vB (specAtomicTime tol true vA (p, []))).2,
   (specAtomicTime tol true vA (specAtomicTime tol false vB (p, []))).2]

/-- A concrete relay state used to instantiate theorems with hypotheses:
tolerance 2.5s (the default), three registered peers. -/
def demoState : State :=
  { time_tolerance := 5/2, current_pause := some false
    current_time := 0, clients := [0, 1, 2] }

end SyncServer

namespace Sync

/-- A concrete identity assignment for two connections, used to instantiate
theorems with hypotheses. -/
def identDemo : Conn → String :=
  fun n => if n = 0 then "a" else "b"

end Sync

namespace Sync

open SyncServer SyncClient

/-! Helper lemmas reducing `handle_message` on each message shape. -/

theorem handle_message_time_eq (st : State) (t : ℚ) (src : Option String) :
    handle_message st (mkTime t src) =
      if st.time_tolerance < |t - st.current_time| then
        ({ st with current_time := t }, some (mkTime t src))
      else (st, none) := by
  simp [handle_message, mkTime]

theorem handle_message_seek_eq (st : State) (t : ℚ) (src : Option String) :
    handle_message st (mkSeek t src) =
      if st.time_tolerance < |t - st.current_time| then
        ({ st with current_time := t }, some (mkSeek t src))
      else (st, none) := by
  simp [handle_message, mkSeek]

theorem handle_message_pause_eq (st : State) (b : Bool) (src : Option String) :
    handle_message st (mkPause b src) =
      if some b ≠ st.current_pause then
        ({ st with current_pause := some b }, some (mkPause b src))
      else (st, none) := by
  simp [handle_message, mkPause]

theorem handle_message_clients (st : State) (m : Msg) :
    (handle_message st m).1.clients = st.clients := by
  unfold handle_message
  repeat' split <;> try rfl

end Sync

namespace Sync

open SyncServer SyncClient

theorem mem_broadcast_to_others {clients : List Conn} {sender : Conn}
    {fails : Conn → Bool} {cb : Conn × Bool} :
    cb ∈ broadcast_to_others clients sender fails →
    cb.1 ∈ clients ∧ cb.1 ≠ sender ∧ cb.2 = !fails cb.1 := by
  intro h
  simp only [broadcast_to_others, List.mem_map, List.mem_filter,
    decide_eq_true_eq] at h
  obtain ⟨a, ⟨ha, hane⟩, rfl⟩ := h
  exact ⟨ha, hane, rfl⟩

theorem broadcast_count (clients : List Conn) (sender : Conn) (fails : Conn → Bool)
    (hnd : clients.Nodup) (c : Conn) :
    ((broadcast_to_others clients sender fails).map Prod.fst).count c
      = if c ∈ clients ∧ c ≠ sender then 1 else 0 := by
  have hmap : (broadcast_to_others clients sender fails).map Prod.fst
      = clients.filter (fun x => decide (x ≠ sender)) := by
    simp [broadcast_to_others, List.map_map, Function.comp_def]
  rw [hmap]
  by_cases hc : c ∈ clients ∧ c ≠ sender
  · rw [if_pos hc]
    exact List.count_eq_one_of_mem (hnd.filter _)
      (by simp [List.mem_filter, hc.1, hc.2])
  · rw [if_neg hc, List.count_eq_zero]
    intro hmem
    simp only [List.mem_filter, decide_eq_true_eq] at hmem
    exact hc ⟨hmem.1, hmem.2⟩

theorem handleLine_clients (st : State) (l : Line) :
    (handleLine st l).1.clients = st.clients := by
  cases l <;> simp [handleLine, handle_message_clients]

theorem runLines_clients (ls : List Line) : ∀ st : State,
    (runLines st ls).1.clients = st.clients := by
  induction ls with
  | nil => intro st; rfl
  | cons l rest ih =>
    intro st
    simp only [runLines]
    rw [ih, handleLine_clients]

theorem setAdd_nodup (l : List Conn) (c : Conn) (h : l.Nodup) :
    (setAdd l c).Nodup := by
  unfold setAdd
  split
  · exact h
  · next hc =>
    simp [List.nodup_append, h, hc]

theorem handle_client_removes (st : State) (conn : Conn) (ls : List Line)
    (hnd : st.clients.Nodup) :
    conn ∉ (handle_client st conn ls).1.clients := by
  unfold handle_client
  simp only
  rw [runLines_clients]
  exact (setAdd_nodup st.clients conn hnd).not_mem_erase

end Sync

namespace Sync

open SyncServer SyncClient

theorem fineDemo (tol p v : ℚ) (h0 : 0 ≤ tol) (h : tol < |v - p|) :
    (fineRun tol v v [true, false, true, true, false, false] (fineInit p)).log
      = [(true, v), (false, v)] ∧
    specSerialLogs tol v v p = [[(true, v)], [(false, v)]] := by
  have hvv : ¬ tol < |v - v| := by
    rw [sub_self, abs_zero]
    exact not_lt.mpr h0
  constructor
  · simp [fineRun, fineInit, fineStep, h]
  · simp [specSerialLogs, specAtomicTime, h, hvv, not_lt.mpr h0]

theorem connectMpvLoop_timeout (deadline : ℚ) :
    ∀ l : List (SyncClient.DialResult × ℚ),
      (∀ x ∈ l, x.1 = SyncClient.DialResult.transientFail) →
      (∃ x ∈ l, deadline < x.2) →
      connectMpvLoop deadline l = SyncClient.LoopOutcome.timeoutError := by
  intro l
  induction l with
  | nil => intro _ hex; simp at hex
  | cons a rest ih =>
    intro hall hex
    have ha : a.1 = SyncClient.DialResult.transientFail := hall a (by simp)
    obtain ⟨r, t⟩ := a
    simp only at ha
    subst ha
    simp only [connectMpvLoop]
    by_cases ht : t > deadline
    · rw [if_pos ht]
    · rw [if_neg ht]
      apply ih
      · intro x hx; exact hall x (List.mem_cons_of_mem _ hx)
      · rcases hex with ⟨x, hx, hxd⟩
        rcases List.mem_cons.mp hx with hxa | hxr
        · exfalso; apply ht; rw [hxa] at hxd; exact hxd
        · exact ⟨x, hxr, hxd⟩

end Sync

namespace Sync

open SyncServer SyncClient

/-- C1: for tolerance T and current canonical position P, a "time" event with
value v is suppressed (state unchanged, nothing broadcast) when |v - P| <= T,
and when |v - P| > T the canonical position becomes v and the event goes to
`broadcast_to_others`, which attempts the write exactly once to every
registered peer except the sender. -/
theorem C1_time_update_gate (st : State) (v : ℚ) (src : Option String)
    (sender : Conn) (fails : Conn → Bool) (hnd : st.clients.Nodup) :
    (|v - st.current_time| ≤ st.time_tolerance →
        handle_message st (mkTime v src) = (st, none)) ∧
    (st.time_tolerance < |v - st.current_time| →
        handle_message st (mkTime v src)
          = ({ st with current_time := v }, some (mkTime v src)) ∧
        ∀ c : Conn,
          ((broadcast_to_others st.clients sender fails).map Prod.fst).count c
            = if c ∈ st.clients ∧ c ≠ sender then 1 else 0) := by
  refine ⟨fun hle => ?_, fun hgt => ⟨?_, fun c => broadcast_count _ _ _ hnd c⟩⟩
  · rw [handle_message_time_eq, if_neg (not_lt.mpr hle)]
  · rw [handle_message_time_eq, if_pos hgt]

/-- C1 witness: tolerance 2.5, position 0, peers 0,1,2; the event time 10 from
peer 0 updates the state and is attempted once at peer 1. -/
theorem C1_witness :
    handle_message demoState (mkTime 10 (some "a"))
      = ({ demoState with current_time := 10 }, some (mkTime 10 (some "a"))) ∧
    ((broadcast_to_others demoState.clients 0 (fun _ => false)).map Prod.fst).count 1
      = 1 := by
  have h := (C1_time_update_gate demoState 10 (some "a") 0 (fun _ => false)
    (by decide)).2 (by norm_num [demoState])
  refine ⟨h.1, ?_⟩
  rw [h.2 1]
  decide

/-- C2: a "pause" event carrying value b is accepted iff some b differs from
the canonical paused value: on acceptance the canonical value becomes some b
and the event goes to `broadcast_to_others` (once per registered peer except
the sender); when equal, nothing changes and nothing is broadcast; and
immediately re-sending the same value after any pause event is always
suppressed (idempotence). -/
theorem C2_pause_gate (st : State) (b : Bool) (src src2 : Option String)
    (sender : Conn) (fails : Conn → Bool) (hnd : st.clients.Nodup) :
    (some b = st.current_pause →
        handle_message st (mkPause b src) = (st, none)) ∧
    (some b ≠ st.current_pause →
        handle_message st (mkPause b src)
          = ({ st with current_pause := some b }, some (mkPause b src)) ∧
        ∀ c : Conn,
          ((broadcast_to_others st.clients sender fails).map Prod.fst).count c
            = if c ∈ st.clients ∧ c ≠ sender then 1 else 0) ∧
    handle_message (handle_message st (mkPause b src)).1 (mkPause b src2)
      = ((handle_message st (mkPause b src)).1, none) := by
  refine ⟨fun hb => ?_, fun hb => ⟨?_, fun c => broadcast_count _ _ _ hnd c⟩, ?_⟩
  · rw [handle_message_pause_eq, if_neg (not_not_intro hb)]
  · rw [handle_message_pause_eq, if_pos hb]
  · have hpost : (handle_message st (mkPause b src)).1.current_pause = some b := by
      by_cases hb : some b = st.current_pause
      · rw [handle_message_pause_eq, if_neg (not_not_intro hb)]
        exact hb.symm
      · rw [handle_message_pause_eq, if_pos hb]
    rw [handle_message_pause_eq, if_neg (not_not_intro hpost.symm)]

/-- C2 witness: pause true against canonical pause false is accepted and
attempted once at peer 2; repeating pause true is then suppressed. -/
theorem C2_witness :
    handle_message demoState (mkPause true (some "a"))
      = ({ demoState with current_pause := some true }, some (mkPause true (some "a"))) ∧
    ((broadcast_to_others demoState.clients 0 (fun _ => false)).map Prod.fst).count 2
      = 1 ∧
    handle_message { demoState with current_pause := some true } (mkPause true (some "b"))
      = ({ demoState with current_pause := some true }, none) := by
  have h := C2_pause_gate demoState true (some "a") (some "b") 0 (fun _ => false)
    (by decide)
  have h1 := (h.2.1 (by decide)).1
  have h2 := h.2.2
  rw [h1] at h2
  refine ⟨h1, ?_, h2⟩
  rw [(h.2.1 (by decide)).2 2]
  decide

/-- C5: the source identity of every outbound client event is stamped with the
client's identity before serialization, and the relay hands the received
message itself (source field included) to `broadcast_to_others`: it is either
not broadcast at all or broadcast unmodified. -/
theorem C5_source_unmodified (cid : String) (e : Msg) (st : State) (m : Msg) :
    (send_to_server cid e).source = some cid ∧
    ((handle_message st m).2 = none ∨ (handle_message st m).2 = some m) := by
  refine ⟨rfl, ?_⟩
  unfold handle_message
  repeat' split
  all_goals first
    | exact Or.inl rfl
    | exact Or.inr rfl

/-- C9: the relay starts with canonical pause false, position 0 and no peers;
hence the first pause event carrying false is suppressed, and the first time
event within tolerance of 0 is suppressed. -/
theorem C9_initial_state (tol : ℚ) (src src2 : Option String) :
    (State.init tol).current_pause = some false ∧
    (State.init tol).current_time = 0 ∧
    (State.init tol).clients = [] ∧
    handle_message (State.init tol) (mkPause false src) = (State.init tol, none) ∧
    ∀ v : ℚ, |v - 0| ≤ tol →
      handle_message (State.init tol) (mkTime v src2) = (State.init tol, none) := by
  refine ⟨rfl, rfl, rfl, ?_, fun v hv => ?_⟩
  · rw [handle_message_pause_eq]
    simp [State.init]
  · rw [handle_message_time_eq]
    rw [if_neg]
    exact not_lt.mpr hv

/-- C9 witness: with the default tolerance 2.5, pause false and time 2 are
both suppressed on the initial state. -/
theorem C9_witness :
    handle_message (State.init (5/2)) (mkPause false (some "a"))
      = (State.init (5/2), none) ∧
    handle_message (State.init (5/2)) (mkTime 2 (some "a"))
      = (State.init (5/2), none) :=
  ⟨(C9_initial_state (5/2) (some "a") (some "a")).2.2.2.1,
   (C9_initial_state (5/2) (some "a") (some "a")).2.2.2.2 2 (by norm_num)⟩

/-- C10: a "seek" wire event is processed exactly like a "time" event: the
relay applies the same drift test to its raw_time and on acceptance reaches
the same state, broadcasting the seek message itself; and the receiving peer
turns it into the same time-pos set-command a "time" event produces. -/
theorem C10_seek_like_time (st : State) (t : ℚ) (src : Option String) (cid : String) :
    (handle_message st (mkSeek t src)).1 = (handle_message st (mkTime t src)).1 ∧
    (handle_message st (mkSeek t src)).2
      = ((handle_message st (mkTime t src)).2).map (fun _ => mkSeek t src) ∧
    listen_apply cid (mkSeek t src) = listen_apply cid (mkTime t src) := by
  refine ⟨?_, ?_, ?_⟩
  · rw [handle_message_seek_eq, handle_message_time_eq]
    by_cases hd : st.time_tolerance < |t - st.current_time| <;> simp [hd]
  · rw [handle_message_seek_eq, handle_message_time_eq]
    by_cases hd : st.time_tolerance < |t - st.current_time| <;> simp [hd]
  · by_cases hs : src = some cid <;>
      simp [listen_apply, mkSeek, mkTime, hs]

end Sync

namespace Sync

open SyncServer SyncClient

/-- C3: with an identity assignment in which no registered connection other
than the sender carries the sender's identity, and the event stamped with the
sender's identity: the hub's broadcast never targets the sending connection;
every connection it does target has an identity different from the event's
source (so the server-side exclusion alone prevents self-application); and any
client whose identity equals the event's source drops it in `_listen_server`
(so the client-side re-check alone prevents self-application). -/
theorem C3_no_self_echo (clients : List Conn) (sender : Conn)
    (ident : Conn → String) (msg : Msg) (fails : Conn → Bool)
    (hsrc : msg.source = some (ident sender))
    (hid : ∀ c ∈ clients, ident c = ident sender → c = sender) :
    (∀ cb ∈ broadcast_to_others clients sender fails, cb.1 ≠ sender) ∧
    (∀ cb ∈ broadcast_to_others clients sender fails,
        msg.source ≠ some (ident cb.1)) ∧
    (∀ c : Conn, msg.source = some (ident c) →
        listen_apply (ident c) msg = Action.skip) := by
  refine ⟨fun cb hcb => (mem_broadcast_to_others hcb).2.1, fun cb hcb => ?_,
    fun c hc => ?_⟩
  · obtain ⟨hmem, hne, -⟩ := mem_broadcast_to_others hcb
    rw [hsrc]
    intro hEq
    exact hne (hid cb.1 hmem (Option.some.inj hEq).symm)
  · rw [listen_apply, if_pos hc]

/-- C3 witness: peers 0 and 1 with identities "a" and "b"; a pause event from
peer 0 stamped "a" is delivered to peer 1 (whose identity differs from the
source), and a client with identity "a" drops it. -/
theorem C3_witness :
    (1, true) ∈ broadcast_to_others [0, 1] 0 (fun _ => false) ∧
    (mkPause true (some "a")).source ≠ some (identDemo 1) ∧
    listen_apply (identDemo 0) (mkPause true (some "a")) = Action.skip := by
  have h := C3_no_self_echo [0, 1] 0 identDemo (mkPause true (some "a"))
    (fun _ => false) (by decide) (by decide)
  exact ⟨by decide, h.2.1 (1, true) (by decide), h.2.2 0 (by decide)⟩

/-- C4 counterexample: the claim says a malformed line on either protocol is
dropped and the stream continues, but `_listen_server` does not guard
`json.loads`: prepending the malformed line to a valid time event makes the
client loop raise (crash flag true) and emit no command, whereas the valid
event alone would produce the time-pos set-command. -/
theorem C4_counterexample :
    listenRun "c" [Line.malformed "\x7bnot json",
        Line.parsed (mkTime 10 (some "peer"))]
      = ([], true) ∧
    listenRun "c" [Line.parsed (mkTime 10 (some "peer"))]
      = ([MpvCommand.set_property "time-pos" (PropValue.q 10)], false) := by
  decide

/-- C4 amended: on the relay's receive loop a malformed line is dropped and
processing continues exactly as if the line had never arrived (so a subsequent
valid event from the same peer is handled normally), and no line handling ever
removes the connection from the registered set; on the client's receive loop a
malformed line instead raises an uncaught exception. -/
theorem C4_malformed_line (st : State) (s : String) (rest : List Line)
    (l : Line) (cid s2 : String) :
    runLines st (Line.malformed s :: rest) = runLines st rest ∧
    (handleLine st l).1.clients = st.clients ∧
    listenLine cid (Line.malformed s2) = Action.raiseError := by
  refine ⟨?_, handleLine_clients st l, rfl⟩
  simp [runLines, handleLine]

/-- C6: a failed write to peer b inside one broadcast round does not abort the
round: every other registered peer except the sender whose write does not
itself fail is still written to; the failing peer is still attempted (its
failure only logged); handling a message never removes any connection from the
registered set; the failing peer's connection is removed only by its own
receive loop's exit path (`handle_client`'s finally). -/
theorem C6_send_failure_isolated (clients : List Conn) (sender b c : Conn)
    (fails : Conn → Bool) (st st2 : State) (m : Msg) (conn : Conn)
    (ls : List Line)
    (hb : fails b = true) (hc : c ∈ clients) (hcs : c ≠ sender)
    (hcf : fails c = false) :
    (c, true) ∈ broadcast_to_others clients sender fails ∧
    (b ∈ clients → b ≠ sender →
        (b, false) ∈ broadcast_to_others clients sender fails) ∧
    (handle_message st m).1.clients = st.clients ∧
    (st2.clients.Nodup → conn ∉ (handle_client st2 conn ls).1.clients) := by
  refine ⟨?_, fun hbm hbs => ?_, handle_message_clients st m,
    fun hnd => handle_client_removes st2 conn ls hnd⟩
  · simp only [broadcast_to_others, List.mem_map, List.mem_filter,
      decide_eq_true_eq]
    exact ⟨c, ⟨hc, hcs⟩, by simp [hcf]⟩
  · simp only [broadcast_to_others, List.mem_map, List.mem_filter,
      decide_eq_true_eq]
    exact ⟨b, ⟨hbm, hbs⟩, by simp [hb]⟩

/-- C6 witness: peers 0,1,2, sender 0, the write to peer 1 fails; peer 2 is
still written to, peer 1 was attempted, and peer 1's own loop exit removes it. -/
theorem C6_witness :
    (2, true) ∈ broadcast_to_others [0, 1, 2] 0 (fun n => decide (n = 1)) ∧
    (1, false) ∈ broadcast_to_others [0, 1, 2] 0 (fun n => decide (n = 1)) ∧
    1 ∉ (handle_client demoState 1 []).1.clients := by
  have h := C6_send_failure_isolated [0, 1, 2] 0 1 2 (fun n => decide (n = 1))
    demoState demoState (mkPause true none) 1 [] (by decide) (by decide)
    (by decide) (by decide)
  exact ⟨h.1, h.2.1 (by decide) (by decide), h.2.2.2 (by decide)⟩

end Sync

namespace Sync

open SyncServer SyncClient

/-- C7 counterexample: the claim says the control-channel connection timeout
is the only error that surfaces fatally, but `connect` also dials the relay
server with an unguarded `self.server_sock.connect` (client.py:101): with the
mpv channel available at once and the relay dial failing, `connect` raises a
fatal error that is not the connection-timeout error. -/
theorem C7_counterexample :
    connect 0 [(DialResult.ok, 0)] false = some ConnectResult.serverDialError ∧
    ConnectResult.serverDialError ≠ ConnectResult.timeoutError := by
  exact ⟨rfl, by decide⟩

/-- C7 amended: while the control channel is unavailable (every attempt a
transient dial failure), a failed attempt whose post-check clock is within the
deadline just sleeps 0.1s and retries; once some failed attempt's clock
exceeds the 5-second deadline (`time.time() + 5`), `connect` raises the
connection-timeout error; besides this, the unretried relay dial at the end of
`connect` is a second startup error that surfaces fatally. -/
theorem C7_connect_retry (start : ℚ) (l : List (DialResult × ℚ))
    (serverOk : Bool)
    (hall : ∀ x ∈ l, x.1 = DialResult.transientFail)
    (hex : ∃ x ∈ l, connectDeadline start < x.2) :
    connectMpvLoop (connectDeadline start) l = LoopOutcome.timeoutError ∧
    connect start l serverOk = some ConnectResult.timeoutError ∧
    (∀ (t : ℚ) (rest : List (DialResult × ℚ)), ¬ connectDeadline start < t →
        connectMpvLoop (connectDeadline start)
            ((DialResult.transientFail, t) :: rest)
          = connectMpvLoop (connectDeadline start) rest) ∧
    retrySleepSeconds = 1/10 ∧
    connectDeadline start = start + 5 := by
  have h1 := connectMpvLoop_timeout (connectDeadline start) l hall hex
  refine ⟨h1, ?_, fun t rest ht => ?_, rfl, rfl⟩
  · unfold connect
    rw [h1]
  · simp [connectMpvLoop, ht]

/-- C7 witness: start time 0, one transient failure checked at time 6 (past
the deadline 5): the loop raises the timeout error. -/
theorem C7_witness :
    connectMpvLoop (connectDeadline 0) [(DialResult.transientFail, 6)]
      = LoopOutcome.timeoutError ∧
    connect 0 [(DialResult.transientFail, 6)] true
      = some ConnectResult.timeoutError := by
  have h := C7_connect_retry 0 [(DialResult.transientFail, 6)] true (by decide)
    ⟨(DialResult.transientFail, 6), by decide,
      by norm_num [SyncClient.connectDeadline]⟩
  exact ⟨h.1, h.2.1⟩

/-- C8 counterexample: the claim says the compare-update-then-broadcast
sequence runs under the lock, making state mutation plus broadcast atomic
relative to other incoming events; but `_handle_message` reads and writes
`current_time` without holding the lock, so with tolerance 2.5, position 0 and
two concurrent time events of value 10, the interleaving A-test, B-test,
A-write, A-broadcast, B-write, B-broadcast produces a broadcast log that no
atomic (serial) order can produce. -/
theorem C8_counterexample :
    (fineRun (5/2) 10 10 [true, false, true, true, false, false] (fineInit 0)).log
      ∉ specSerialLogs (5/2) 10 10 0 := by
  obtain ⟨h1, h2⟩ := fineDemo (5/2) 0 10 (by norm_num) (by norm_num)
  rw [h1, h2]
  simp

/-- C8 amended: only the registered-peer set is manipulated under the lock;
the canonical-state compare and update in `_handle_message` run outside it, so
for any tolerance >= 0 and any value v with |v - P| > tolerance, two
near-simultaneous identical time updates can both pass the drift test against
the same prior position and both broadcast (log of length two), while every
atomic serialization broadcasts exactly once - the claimed atomicity fails. -/
theorem C8_state_unlocked (tol p v : ℚ) (h0 : 0 ≤ tol) (h : tol < |v - p|) :
    (fineRun tol v v [true, false, true, true, false, false] (fineInit p)).log
      = [(true, v), (false, v)] ∧
    specSerialLogs tol v v p = [[(true, v)], [(false, v)]] ∧
    (fineRun tol v v [true, false, true, true, false, false] (fineInit p)).log
      ∉ specSerialLogs tol v v p := by
  obtain ⟨h1, h2⟩ := fineDemo tol p v h0 h
  refine ⟨h1, h2, ?_⟩
  rw [h1, h2]
  simp

/-- C8 witness: tolerance 2.5, prior position 0, both events value 10. -/
theorem C8_witness :
    (fineRun (5/2) 10 10 [true, false, true, true, false, false] (fineInit 0)).log
      = [(true, 10), (false, 10)] ∧
    specSerialLogs (5/2) 10 10 0 = [[(true, 10)], [(false, 10)]] ∧
    (fineRun (5/2) 10 10 [true, false, true, true, false, false] (fineInit 0)).log
      ∉ specSerialLogs (5/2) 10 10 0 :=
  C8_state_unlocked (5/2) 0 10 (by norm_num) (by norm_num)

end Sync
